import Mathlib

/-!
Verification development for the android-discord-rich-presence repository.

The file embeds, as executable Lean definitions, the behaviourally relevant
parts of:

* `ForegroundAppModule.getForegroundAppName` (Kotlin, the foreground-app
  resolver on the mobile device);
* `DesktopRPC` (the mobile-side relay transport, `setActivity` with its
  throttle state);
* `updateNotificationWithForegroundApp` (the per-tick presence gate on the
  mobile side);
* the desktop companion server (`connectToDiscord`, the `/update-presence`,
  `/clear-presence` handlers and the staleness sweep), modelled as a state
  machine over the module-level mutable variables of `desktop-app/index.js`.

Theorems about these definitions settle the frozen claims about the spec.
-/

/-! ## Android usage events and the `getForegroundAppName` resolver -/

inductive UsageEventType
  | moveToForeground
  | moveToBackground
  | otherEvent
deriving DecidableEq

structure UsageEvent where
  packageName : Option String
  eventType : UsageEventType
  timeStamp : Nat
deriving DecidableEq

structure UsageStat where
  packageName : String
  lastTimeUsed : Nat
deriving DecidableEq

/-- The fixed set of filtered system / Google packages from
`ForegroundAppModule.kt`. -/
def systemPackages : List String :=
  ["com.android.systemui",
   "com.google.android.gms",
   "com.google.android.googlequicksearchbox",
   "com.google.android.apps.photos",
   "com.google.android.apps.docs",
   "com.google.android.apps.maps"]

/-- `isSystemPackage` from `ForegroundAppModule.kt`: a `null` package, the
reporting app itself, `android.`/`com.android.` prefixes and the fixed set
are all treated as system packages. -/
def isSystemPackage (myPackageName : String) : Option String → Bool
  | none => true
  | some pkg =>
    pkg == myPackageName || pkg.startsWith "android." ||
      pkg.startsWith "com.android." || systemPackages.contains pkg

/-! `appStates` in the Kotlin source is a `mutableMapOf<String, Long>`, i.e. a
`LinkedHashMap`: iteration order is first-insertion order, refreshing an
existing key keeps its position, removing and re-adding moves it to the end.
We embed it as an association list with exactly those semantics. -/

def lhmContains (m : List (String × Nat)) (k : String) : Bool :=
  m.any (fun p => p.1 == k)

def lhmInsert (m : List (String × Nat)) (k : String) (v : Nat) :
    List (String × Nat) :=
  if lhmContains m k then m.map (fun p => if p.1 == k then (k, v) else p)
  else m ++ [(k, v)]

def lhmRemove (m : List (String × Nat)) (k : String) : List (String × Nat) :=
  m.filter (fun p => p.1 != k)

def lhmLookup (m : List (String × Nat)) (k : String) : Option Nat :=
  (m.find? (fun p => p.1 == k)).map Prod.snd

/-- Kotlin's `maxByOrNull` keeps the current maximum and replaces it only on a
strictly greater value, so on ties the first element in iteration order
wins. -/
def maxByAux {α : Type} (f : α → Nat) (cur : α) : List α → α
  | [] => cur
  | p :: rest => maxByAux f (if f p > f cur then p else cur) rest

def maxByNat {α : Type} (f : α → Nat) : List α → Option α
  | [] => none
  | p :: rest => some (maxByAux f p rest)

/-- The three mutable trackers of the event-replay loop in
`getForegroundAppName`: `appStates`, `lastForegroundPackage`,
`lastForegroundTime`. -/
structure ReplayState where
  appStates : List (String × Nat)
  lastForegroundPackage : Option String
  lastForegroundTime : Nat
deriving DecidableEq

def initialReplayState : ReplayState := ⟨[], none, 0⟩

/-- One iteration of the `while (events.hasNextEvent())` loop. -/
def processEvent (myPackageName : String) (st : ReplayState)
    (e : UsageEvent) : ReplayState :=
  match e.packageName with
  | none => st
  | some pkg =>
    if isSystemPackage myPackageName (some pkg) then st
    else
      match e.eventType with
      | .moveToForeground =>
        let appStates := lhmInsert st.appStates pkg e.timeStamp
        if e.timeStamp > st.lastForegroundTime then
          { appStates := appStates, lastForegroundPackage := some pkg,
            lastForegroundTime := e.timeStamp }
        else { st with appStates := appStates }
      | .moveToBackground => { st with appStates := lhmRemove st.appStates pkg }
      | .otherEvent => st

def replayEvents (myPackageName : String) (evs : List UsageEvent) :
    ReplayState :=
  evs.foldl (processEvent myPackageName) initialReplayState

/-- Collaborator environment of `getForegroundAppName`: the React context,
`UsageStatsManager` and `PackageManager` interactions.  `.error` models a
thrown exception from the corresponding call. -/
structure AndroidEnv where
  myPackageName : String
  sdkAtLeastLollipopMr1 : Bool
  /-- `getSystemService(USAGE_STATS_SERVICE)` (or anything else inside the
  outer usage-stats `try`, other than `queryEvents`/`queryUsageStats`)
  throws. -/
  usageStatsThrows : Bool
  queryEventsResult : Except Unit (Option (List UsageEvent))
  queryStatsResult : Except Unit (Option (List UsageStat))
  /-- The `getAppNameFromPackage` helper.  It catches all its own
  exceptions and returns a pair of an optional display name and a
  `nameMethod`/debug string. -/
  getAppNameFromPackage : String → Option String × String

/-- The per-call mutable quadruple `(appName, packageName, method, debugInfo)`
of `getForegroundAppName`. -/
abbrev ResolverVars := Option String × Option String × String × String

/-- The `queryEvents` section (lines 146–222 of `ForegroundAppModule.kt`):
replay events, then try `events-state`, then `events-recent`, then the
remaining fallbacks. -/
def eventsSection (env : AndroidEnv) (evs : List UsageEvent) : ResolverVars :=
  let rs := replayEvents env.myPackageName evs
  let statesSize := Nat.repr rs.appStates.length
  let r1 : ResolverVars :=
    if rs.appStates.isEmpty then (none, none, "none", "")
    else
      match maxByNat Prod.snd rs.appStates with
      | none => (none, none, "none", "")
      | some currentForegroundApp =>
        let pkg := currentForegroundApp.1
        let lookup := env.getAppNameFromPackage pkg
        match lookup.1 with
        | some n =>
          if n.isEmpty then
            (some pkg, some pkg, "events-state-pkg",
              "states:" ++ statesSize ++ ", nameMethod:" ++ lookup.2)
          else
            (some n, some pkg, "events-state",
              "states:" ++ statesSize ++ ", nameMethod:" ++ lookup.2)
        | none =>
          (some pkg, some pkg, "events-state-pkg",
            "states:" ++ statesSize ++ ", nameMethod:" ++ lookup.2)
  let r2 : ResolverVars :=
    match r1.1, rs.lastForegroundPackage with
    | none, some pkg =>
      let lookup := env.getAppNameFromPackage pkg
      (match lookup.1 with
       | some n =>
         if n.isEmpty then
           (some pkg, some pkg, "events-recent-pkg",
             "states:" ++ statesSize ++ ", nameMethod:" ++ lookup.2)
         else
           (some n, some pkg, "events-recent",
             "states:" ++ statesSize ++ ", nameMethod:" ++ lookup.2)
       | none =>
         (some pkg, some pkg, "events-recent-pkg",
           "states:" ++ statesSize ++ ", nameMethod:" ++ lookup.2))
    | _, _ => r1
  match r2.1, rs.lastForegroundPackage with
  | none, some pkg =>
    (some pkg, some pkg, "events-pkg-only", "states:" ++ statesSize)
  | none, none =>
    (none, r2.2.1, "events-none",
      "states:" ++ statesSize ++ ", lastPkg:null")
  | _, _ => r2

/-- The `queryUsageStats` fallback (lines 229–275). `acc` is the state of the
four mutable variables when the fallback is entered. -/
def statsSection (env : AndroidEnv) (currentTime : Nat)
    (stats : List UsageStat) (acc : ResolverVars) : ResolverVars :=
  if stats.isEmpty then acc
  else
    let filteredStats :=
      stats.filter (fun s => !isSystemPackage env.myPackageName (some s.packageName))
    if filteredStats.isEmpty then acc
    else
      let recentThreshold := currentTime - 5000
      let recentStats :=
        filteredStats.filter (fun s => s.lastTimeUsed ≥ recentThreshold)
      let foregroundApp :=
        if !recentStats.isEmpty then maxByNat UsageStat.lastTimeUsed recentStats
        else maxByNat UsageStat.lastTimeUsed filteredStats
      match foregroundApp with
      | some fa =>
        let pkg := fa.packageName
        let lookup := env.getAppNameFromPackage pkg
        let total := Nat.repr stats.length
        (match lookup.1 with
         | some n =>
           if n.isEmpty then
             (some pkg, some pkg, "stats-pkg",
               "total:" ++ total ++ ", nameMethod:" ++ lookup.2)
           else
             (some n, some pkg, "stats",
               "total:" ++ total ++ ", nameMethod:" ++ lookup.2)
         | none =>
           (some pkg, some pkg, "stats-pkg",
             "total:" ++ total ++ ", nameMethod:" ++ lookup.2))
      | none =>
        (acc.1, acc.2.1, "stats-none",
          "total:" ++ Nat.repr stats.length ++ ", filtered:" ++
            Nat.repr filteredStats.length)

/-- Outcome of the resolver before string formatting: either the early
`promise.resolve("null")` taken when the usage-stats subsystem throws, or the
final values of the four mutable variables. -/
inductive NativeOutcome
  | earlyNull
  | fields (appName : Option String) (packageName : Option String)
      (method : String) (debugInfo : String)
deriving DecidableEq

def resolveForeground (env : AndroidEnv) (currentTime : Nat) : NativeOutcome :=
  if !env.sdkAtLeastLollipopMr1 then .fields none none "none" ""
  else if env.usageStatsThrows then .earlyNull
  else
    let afterEvents : ResolverVars :=
      match env.queryEventsResult with
      | .error _ => (none, none, "none", "")
      | .ok none => (none, none, "none", "")
      | .ok (some evs) => eventsSection env evs
    if afterEvents.1.isSome then
      .fields afterEvents.1 afterEvents.2.1 afterEvents.2.2.1 afterEvents.2.2.2
    else
      match env.queryStatsResult with
      | .error _ => .earlyNull
      | .ok none =>
        .fields afterEvents.1 afterEvents.2.1 afterEvents.2.2.1 afterEvents.2.2.2
      | .ok (some stats) =>
        let r := statsSection env currentTime stats afterEvents
        .fields r.1 r.2.1 r.2.2.1 r.2.2.2

/-- A React Native promise settles by resolving or rejecting. -/
inductive PromiseOutcome
  | resolved (value : String)
  | rejected (code message : String)
deriving DecidableEq

/-- `"${appName}|${packageName ?: "unknown"}|${method}|${debugInfo}"` resp.
`"null|null|${method}|${debugInfo}"` from lines 283–288. -/
def formatResult : NativeOutcome → String
  | .earlyNull => "null"
  | .fields appName packageName method debugInfo =>
    match appName with
    | some a =>
      a ++ "|" ++ (match packageName with | some p => p | none => "unknown") ++
        "|" ++ method ++ "|" ++ debugInfo
    | none => "null|null|" ++ method ++ "|" ++ debugInfo

/-- The full bridge method: every path ends in `promise.resolve`. -/
def getForegroundAppName (env : AndroidEnv) (currentTime : Nat) :
    PromiseOutcome :=
  .resolved (formatResult (resolveForeground env currentTime))

/-- Convenience constructors for concrete test events. -/
def fgEv (p : String) (t : Nat) : UsageEvent := ⟨some p, .moveToForeground, t⟩

def bgEv (p : String) (t : Nat) : UsageEvent := ⟨some p, .moveToBackground, t⟩

def testMyPkg : String := "com.johnuberbacher.androiddiscordrichpresence"

/-- A concrete environment whose `queryEvents` returns the given events and
whose name lookup always fails over to the package name. -/
def mkEventsEnv (evs : List UsageEvent) : AndroidEnv :=
  { myPackageName := testMyPkg
    sdkAtLeastLollipopMr1 := true
    usageStatsThrows := false
    queryEventsResult := .ok (some evs)
    queryStatsResult := .ok none
    getAppNameFromPackage := fun _ => (none, "x") }

/-! ## Properties of Kotlin `maxByOrNull` and of the replay loop -/

theorem maxByAux_mem {α : Type} (f : α → Nat) (cur : α) (l : List α) :
    maxByAux f cur l ∈ cur :: l := by
  induction l generalizing cur with
  | nil => simp [maxByAux]
  | cons p rest ih =>
    simp only [maxByAux]
    split
    · have h := ih p
      simp only [List.mem_cons] at h ⊢
      tauto
    · have h := ih cur
      simp only [List.mem_cons] at h ⊢
      tauto

theorem maxByAux_le {α : Type} (f : α → Nat) (cur : α) (l : List α) :
    ∀ q ∈ cur :: l, f q ≤ f (maxByAux f cur l) := by
  induction l generalizing cur with
  | nil =>
    intro q hq
    simp only [List.mem_cons, List.not_mem_nil, or_false] at hq
    simp [maxByAux, hq]
  | cons p rest ih =>
    intro q hq
    simp only [maxByAux]
    rcases List.mem_cons.mp hq with rfl | hq'
    · split
      · next h =>
        exact le_trans (le_of_lt h) (ih p p (List.mem_cons_self p rest))
      · exact ih q q (List.mem_cons_self q rest)
    · rcases List.mem_cons.mp hq' with rfl | hq''
      · split
        · next h => exact ih q q (List.mem_cons_self q rest)
        · next h =>
          exact le_trans (Nat.le_of_not_lt h)
            (ih cur cur (List.mem_cons_self cur rest))
      · split
        · exact ih p q (List.mem_cons_of_mem p hq'')
        · exact ih cur q (List.mem_cons_of_mem cur hq'')

/-- `maxByAux` returns the first maximal element in iteration order: the
input decomposes into a strictly smaller prefix followed by the result. -/
theorem maxByAux_first {α : Type} (f : α → Nat) (cur : α) (l : List α) :
    ∃ l1 l2, cur :: l = l1 ++ maxByAux f cur l :: l2 ∧
      ∀ q ∈ l1, f q < f (maxByAux f cur l) := by
  induction l generalizing cur with
  | nil => exact ⟨[], [], by simp [maxByAux], by simp⟩
  | cons p rest ih =>
    simp only [maxByAux]
    by_cases h : f p > f cur
    · rw [if_pos h]
      obtain ⟨l1, l2, heq, hlt⟩ := ih p
      refine ⟨cur :: l1, l2, by rw [List.cons_append, ← heq], ?_⟩
      intro q hq
      rcases List.mem_cons.mp hq with rfl | hq'
      · exact lt_of_lt_of_le h (maxByAux_le f p rest p (List.mem_cons_self p rest))
      · exact hlt q hq'
    · rw [if_neg h]
      obtain ⟨l1, l2, heq, hlt⟩ := ih cur
      cases l1 with
      | nil =>
        simp only [List.nil_append] at heq
        have hcur : cur = maxByAux f cur rest := (List.cons.injEq _ _ _ _ ▸ heq).1
        refine ⟨[], p :: l2, ?_, by simp⟩
        have hrest : rest = l2 := (List.cons.injEq _ _ _ _ ▸ heq).2
        simp only [List.nil_append]
        rw [← hcur, ← hrest]
      | cons x l1' =>
        simp only [List.cons_append] at heq
        have hx : cur = x := (List.cons.injEq _ _ _ _ ▸ heq).1
        have hrest : rest = l1' ++ maxByAux f cur rest :: l2 :=
          (List.cons.injEq _ _ _ _ ▸ heq).2
        refine ⟨cur :: p :: l1', l2, ?_, ?_⟩
        · rw [List.cons_append, List.cons_append, ← hrest]
        · intro q hq
          have hcurlt : f cur < f (maxByAux f cur rest) := by
            apply hlt
            rw [hx]
            exact List.mem_cons_self x l1'
          rcases List.mem_cons.mp hq with rfl | hq'
          · exact hcurlt
          rcases List.mem_cons.mp hq' with rfl | hq''
          · exact lt_of_le_of_lt (Nat.le_of_not_lt h) hcurlt
          · exact hlt q (List.mem_cons_of_mem x hq'')

theorem maxByNat_mem {α : Type} (f : α → Nat) (l : List α) (p : α)
    (h : maxByNat f l = some p) : p ∈ l := by
  cases l with
  | nil => simp [maxByNat] at h
  | cons q rest =>
    simp only [maxByNat, Option.some.injEq] at h
    rw [← h]
    exact maxByAux_mem f q rest

theorem maxByNat_le {α : Type} (f : α → Nat) (l : List α) (p : α)
    (h : maxByNat f l = some p) : ∀ q ∈ l, f q ≤ f p := by
  cases l with
  | nil => simp [maxByNat] at h
  | cons q rest =>
    simp only [maxByNat, Option.some.injEq] at h
    rw [← h]
    exact maxByAux_le f q rest

theorem maxByNat_first {α : Type} (f : α → Nat) (l : List α) (p : α)
    (h : maxByNat f l = some p) :
    ∃ l1 l2, l = l1 ++ p :: l2 ∧ ∀ q ∈ l1, f q < f p := by
  cases l with
  | nil => simp [maxByNat] at h
  | cons q rest =>
    simp only [maxByNat, Option.some.injEq] at h
    rw [← h]
    exact maxByAux_first f q rest

/-! ## Association-list (LinkedHashMap) lemmas -/

theorem find?_map_refresh (m : List (String × Nat)) (k : String) (v : Nat)
    (hc : lhmContains m k = true) :
    List.find? (fun p => p.1 == k)
      (m.map (fun p => if p.1 == k then (k, v) else p)) = some (k, v) := by
  induction m with
  | nil => simp [lhmContains] at hc
  | cons q rest ih =>
    rw [List.map_cons]
    by_cases hq : (q.1 == k) = true
    · rw [if_pos hq]
      exact List.find?_cons_of_pos _ (by simp)
    · rw [if_neg hq]
      rw [List.find?_cons_of_neg _ (by simp [hq])]
      exact ih (by simpa [lhmContains, hq] using hc)

theorem find?_append_fresh (m : List (String × Nat)) (k : String) (v : Nat)
    (hc : ¬ lhmContains m k = true) :
    List.find? (fun p => p.1 == k) (m ++ [(k, v)]) = some (k, v) := by
  induction m with
  | nil => exact List.find?_cons_of_pos _ (by simp)
  | cons q rest ih =>
    have hq : (q.1 == k) = false := by
      rcases Bool.eq_false_or_eq_true (q.1 == k) with h' | h'
      · exact absurd (by simp [lhmContains, h'] : lhmContains (q :: rest) k = true) hc
      · exact h'
    rw [List.cons_append, List.find?_cons_of_neg _ (by simp [hq])]
    refine ih (fun hcon => hc ?_)
    simp only [lhmContains, List.any_cons, Bool.or_eq_true]
    exact Or.inr (by simpa [lhmContains] using hcon)

theorem lhmLookup_insert (m : List (String × Nat)) (k : String) (v : Nat) :
    lhmLookup (lhmInsert m k v) k = some v := by
  unfold lhmInsert lhmLookup
  by_cases hc : lhmContains m k = true
  · rw [if_pos hc, find?_map_refresh m k v hc]
    rfl
  · rw [if_neg hc, find?_append_fresh m k v hc]
    rfl

theorem lhmLookup_remove (m : List (String × Nat)) (k : String) :
    lhmLookup (lhmRemove m k) k = none := by
  unfold lhmLookup lhmRemove
  rw [Option.map_eq_none']
  rw [List.find?_eq_none]
  intro p hp
  have hne := (List.mem_filter.mp hp).2
  simp only [bne_iff_ne, ne_eq] at hne
  simp [hne]

theorem mem_lhmInsert (m : List (String × Nat)) (k0 : String) (v0 : Nat)
    (k : String) (v : Nat) (h : (k, v) ∈ lhmInsert m k0 v0) :
    k = k0 ∨ (k, v) ∈ m := by
  unfold lhmInsert at h
  split at h
  · rw [List.mem_map] at h
    obtain ⟨p, hp, hpe⟩ := h
    by_cases hk : (p.1 == k0) = true
    · rw [if_pos hk] at hpe
      injection hpe with h1 h2
      exact Or.inl h1.symm
    · rw [if_neg hk] at hpe
      exact Or.inr (hpe ▸ hp)
  · rcases List.mem_append.mp h with h' | h'
    · exact Or.inr h'
    · simp only [List.mem_singleton, Prod.mk.injEq] at h'
      exact Or.inl h'.1

/-! ## C1: replay-map maintenance, maximum selection and the tie-break -/

/-- Modelled from the spec (tie-break comparison only): the spec resolves the
entry with the maximum timestamp "ties broken by latest-seen-in-replay-order,
i.e. last write wins for equal timestamps", so on equal values the later
entry wins.  Used only to compare with the code's `maxByNat`. -/
def specMaxLastWriteWins (m : List (String × Nat)) : Option (String × Nat) :=
  m.foldl (fun acc p =>
    match acc with
    | none => some p
    | some q => if p.2 ≥ q.2 then some p else some q) none

/-- **C1, counterexample.**  On `[ToForeground(app.a, 5), ToForeground(app.b, 5)]`
the replay map holds both apps with equal timestamps.  The code (Kotlin
`maxByOrNull`, which keeps the first maximal entry) resolves `app.a`, while
the claimed last-write-wins tie-break picks `app.b`: the tie-break direction
stated by the claim is false on the code. -/
theorem c1_tie_break_counterexample :
    getForegroundAppName (mkEventsEnv [fgEv "app.a" 5, fgEv "app.b" 5]) 1000
        = .resolved "app.a|app.a|events-state-pkg|states:2, nameMethod:x" ∧
      specMaxLastWriteWins
          (replayEvents testMyPkg [fgEv "app.a" 5, fgEv "app.b" 5]).appStates
        = some ("app.b", 5) :=
  ⟨rfl, rfl⟩

/-- **C1, amended.**  Per-event map maintenance is exactly as claimed (a
non-system `MOVE_TO_FOREGROUND` sets/refreshes the app's entry, a non-system
`MOVE_TO_BACKGROUND` removes it entirely), and on a non-empty replay map the
resolver picks an entry with the maximum timestamp — but ties are broken by
*first* position in map iteration order (Kotlin `maxByOrNull`), not
last-write-wins.  The claim's concrete input
`[FG(app.a, 0), FG(app.b, 10), BG(app.a, 5)]` resolves to `app.b` as
claimed. -/
theorem c1_replay_map_and_max_amended :
    (∀ myPkg st (e : UsageEvent) (pkg : String), e.packageName = some pkg →
      isSystemPackage myPkg (some pkg) = false →
      ((e.eventType = .moveToForeground →
          (processEvent myPkg st e).appStates =
            lhmInsert st.appStates pkg e.timeStamp) ∧
       (e.eventType = .moveToBackground →
          (processEvent myPkg st e).appStates = lhmRemove st.appStates pkg))) ∧
    (∀ m k v, lhmLookup (lhmInsert m k v) k = some v) ∧
    (∀ m k, lhmLookup (lhmRemove m k) k = none) ∧
    (∀ (env : AndroidEnv) (evs : List UsageEvent),
      (replayEvents env.myPackageName evs).appStates ≠ [] →
      ∃ p, maxByNat Prod.snd (replayEvents env.myPackageName evs).appStates
          = some p ∧
        (eventsSection env evs).2.1 = some p.1 ∧
        p ∈ (replayEvents env.myPackageName evs).appStates ∧
        (∀ q ∈ (replayEvents env.myPackageName evs).appStates, q.2 ≤ p.2) ∧
        ∃ l1 l2, (replayEvents env.myPackageName evs).appStates = l1 ++ p :: l2 ∧
          ∀ q ∈ l1, q.2 < p.2) ∧
    (eventsSection (mkEventsEnv [fgEv "app.a" 0, fgEv "app.b" 10, bgEv "app.a" 5])
        [fgEv "app.a" 0, fgEv "app.b" 10, bgEv "app.a" 5]).2.1 = some "app.b" := by
  refine ⟨?_, lhmLookup_insert, lhmLookup_remove, ?_, rfl⟩
  · intro myPkg st e pkg hpk hsys
    obtain ⟨epkg, ety, ets⟩ := e
    simp only at hpk
    subst hpk
    constructor
    · intro hty
      simp only at hty
      subst hty
      simp only [processEvent, hsys, Bool.false_eq_true, if_false]
      split <;> rfl
    · intro hty
      simp only at hty
      subst hty
      simp only [processEvent, hsys, Bool.false_eq_true, if_false]
  · intro env evs hne
    cases hm : maxByNat Prod.snd (replayEvents env.myPackageName evs).appStates with
    | none =>
      exfalso
      cases hms : (replayEvents env.myPackageName evs).appStates with
      | nil => exact hne hms
      | cons q rest =>
        rw [hms] at hm
        simp [maxByNat] at hm
    | some p =>
      refine ⟨p, rfl, ?_, maxByNat_mem _ _ _ hm, maxByNat_le _ _ _ hm,
        maxByNat_first _ _ _ hm⟩
      have hie : (replayEvents env.myPackageName evs).appStates.isEmpty = false := by
        cases hms : (replayEvents env.myPackageName evs).appStates with
        | nil => exact absurd hms hne
        | cons q rest => rfl
      simp only [eventsSection, hie, Bool.false_eq_true, if_false, hm]
      rcases hl : (env.getAppNameFromPackage p.1).1 with _ | n
      · simp [hl]
      · by_cases hn : n.isEmpty = true
        · simp [hl, hn]
        · simp [hl, hn]

/-- Witness for `c1_replay_map_and_max_amended`: the foreground-event equation
at a concrete event and the maximum property at a concrete replay. -/
theorem c1_replay_map_and_max_amended_witness :
    (processEvent testMyPkg initialReplayState (fgEv "app.a" 7)).appStates
        = lhmInsert initialReplayState.appStates "app.a" 7 ∧
      ∃ p, maxByNat Prod.snd
            (replayEvents testMyPkg [fgEv "app.a" 5]).appStates = some p ∧
        (eventsSection (mkEventsEnv [fgEv "app.a" 5]) [fgEv "app.a" 5]).2.1
            = some p.1 ∧
        p ∈ (replayEvents testMyPkg [fgEv "app.a" 5]).appStates ∧
        (∀ q ∈ (replayEvents testMyPkg [fgEv "app.a" 5]).appStates, q.2 ≤ p.2) ∧
        ∃ l1 l2, (replayEvents testMyPkg [fgEv "app.a" 5]).appStates
            = l1 ++ p :: l2 ∧ ∀ q ∈ l1, q.2 < p.2 :=
  ⟨(c1_replay_map_and_max_amended.1 testMyPkg initialReplayState
      (fgEv "app.a" 7) "app.a" rfl (by decide)).1 rfl,
   c1_replay_map_and_max_amended.2.2.2.1 (mkEventsEnv [fgEv "app.a" 5])
      [fgEv "app.a" 5] (by decide)⟩

/-! ## C2: fully backgrounded windows -/

/-- After one loop iteration, a map entry is either newly created by a
non-system foreground event for that key or was already present, and the
iteration cannot have been a processed background event for that key. -/
theorem mem_processEvent (myPkg : String) (st : ReplayState) (e : UsageEvent)
    (k : String) (v : Nat)
    (h : (k, v) ∈ (processEvent myPkg st e).appStates) :
    ((e.packageName = some k ∧ e.eventType = .moveToForeground ∧
        isSystemPackage myPkg (some k) = false) ∨ (k, v) ∈ st.appStates) ∧
    ¬(e.packageName = some k ∧ e.eventType = .moveToBackground ∧
        isSystemPackage myPkg (some k) = false) := by
  obtain ⟨epkg, ety, ets⟩ := e
  cases epkg with
  | none =>
    refine ⟨Or.inr h, ?_⟩
    rintro ⟨h1, -, -⟩
    cases h1
  | some pkg =>
    by_cases hsys : isSystemPackage myPkg (some pkg) = true
    · refine ⟨Or.inr (by simpa [processEvent, hsys] using h), ?_⟩
      rintro ⟨h1, h2, h3⟩
      injection h1 with h1
      subst h1
      rw [hsys] at h3
      cases h3
    · have hsys' : isSystemPackage myPkg (some pkg) = false := by
        simpa using hsys
      cases ety with
      | moveToForeground =>
        have happ : (processEvent myPkg st ⟨some pkg, .moveToForeground, ets⟩).appStates
            = lhmInsert st.appStates pkg ets := by
          simp only [processEvent, hsys', Bool.false_eq_true, if_false]
          split <;> rfl
        rw [happ] at h
        rcases mem_lhmInsert _ _ _ _ _ h with hk | hmem
        · subst hk
          exact ⟨Or.inl ⟨rfl, rfl, hsys'⟩, by rintro ⟨-, h2, -⟩; cases h2⟩
        · exact ⟨Or.inr hmem, by rintro ⟨-, h2, -⟩; cases h2⟩
      | moveToBackground =>
        have happ : (processEvent myPkg st ⟨some pkg, .moveToBackground, ets⟩).appStates
            = lhmRemove st.appStates pkg := by
          simp [processEvent, hsys']
        rw [happ] at h
        have hmem := List.mem_filter.mp h
        refine ⟨Or.inr hmem.1, ?_⟩
        rintro ⟨h1, -, -⟩
        injection h1 with h1
        subst h1
        have hbne := hmem.2
        simp at hbne
      | otherEvent =>
        refine ⟨Or.inr (by simpa [processEvent, hsys'] using h), ?_⟩
        rintro ⟨-, h2, -⟩
        cases h2

/-- Every key of the replay map comes from some event of the window. -/
theorem mem_foldl_processEvent (myPkg : String) (evs : List UsageEvent) :
    ∀ (st : ReplayState) (k : String) (v : Nat),
      (k, v) ∈ (evs.foldl (processEvent myPkg) st).appStates →
      (∃ e ∈ evs, e.packageName = some k) ∨ (k, v) ∈ st.appStates := by
  induction evs with
  | nil => exact fun st k v h => Or.inr h
  | cons e rest ih =>
    intro st k v h
    rw [List.foldl_cons] at h
    rcases ih _ k v h with hex | hmem
    · obtain ⟨e2, he2, hp⟩ := hex
      exact Or.inl ⟨e2, List.mem_cons_of_mem e he2, hp⟩
    · rcases (mem_processEvent myPkg st e k v hmem).1 with hnew | hold
      · exact Or.inl ⟨e, List.mem_cons_self e rest, hnew.1⟩
      · exact Or.inr hold

/-- `lastForegroundPackage` is only ever set to an event's package. -/
theorem lastFg_foldl (myPkg : String) (evs : List UsageEvent) :
    ∀ (st : ReplayState) (p : String),
      (evs.foldl (processEvent myPkg) st).lastForegroundPackage = some p →
      (∃ e ∈ evs, e.packageName = some p) ∨
        st.lastForegroundPackage = some p := by
  induction evs with
  | nil => exact fun st p h => Or.inr h
  | cons e rest ih =>
    intro st p h
    rw [List.foldl_cons] at h
    rcases ih _ p h with hex | hlast
    · obtain ⟨e2, he2, hp⟩ := hex
      exact Or.inl ⟨e2, List.mem_cons_of_mem e he2, hp⟩
    · have hstep : (processEvent myPkg st e).lastForegroundPackage
            = st.lastForegroundPackage ∨
          (processEvent myPkg st e).lastForegroundPackage = e.packageName := by
        obtain ⟨epkg, ety, ets⟩ := e
        cases epkg with
        | none => exact Or.inl rfl
        | some pkg =>
          by_cases hsys : isSystemPackage myPkg (some pkg) = true
          · exact Or.inl (by simp [processEvent, hsys])
          · have hsys' : isSystemPackage myPkg (some pkg) = false := by
              simpa using hsys
            cases ety with
            | moveToForeground =>
              simp only [processEvent, hsys', Bool.false_eq_true, if_false]
              split
              · exact Or.inr rfl
              · exact Or.inl rfl
            | moveToBackground => exact Or.inl (by simp [processEvent, hsys'])
            | otherEvent => exact Or.inl (by simp [processEvent, hsys'])
      rcases hstep with h1 | h1
      · exact Or.inr (by rw [← h1]; exact hlast)
      · exact Or.inl ⟨e, List.mem_cons_self e rest,
          by rw [← h1]; exact hlast⟩

/-- Bool test used in `closedCheck`: is `e2` a background event for `a`? -/
def isBgEventFor (a : String) (e2 : UsageEvent) : Bool :=
  e2.packageName == some a && e2.eventType == UsageEventType.moveToBackground

/-- The hypothesis of claim C2: every `ToForeground(a)` is followed, later
in the event sequence, by a `ToBackground(a)`. -/
def closedCheck : List UsageEvent → Bool
  | [] => true
  | e :: rest =>
    (match e.packageName, e.eventType with
     | some a, .moveToForeground => rest.any (isBgEventFor a)
     | _, _ => true) && closedCheck rest

/-- If every foreground event of `evs` is later backgrounded and every key of
the starting map will be backgrounded by `evs`, the replay ends empty. -/
theorem replay_closed_aux (myPkg : String) :
    ∀ (evs : List UsageEvent) (st : ReplayState),
      closedCheck evs = true →
      (∀ k v, (k, v) ∈ st.appStates →
        isSystemPackage myPkg (some k) = false ∧
          ∃ e2 ∈ evs, e2.packageName = some k ∧
            e2.eventType = UsageEventType.moveToBackground) →
      (evs.foldl (processEvent myPkg) st).appStates = [] := by
  intro evs
  induction evs with
  | nil =>
    intro st _ hks
    cases hms : st.appStates with
    | nil => simpa using hms
    | cons q rest =>
      exfalso
      obtain ⟨-, e2, he2, -⟩ :=
        hks q.1 q.2 (by rw [hms]; exact List.mem_cons_self _ _)
      simp at he2
  | cons e rest ih =>
    intro st hc hks
    rw [List.foldl_cons]
    have hc2 := (Bool.and_eq_true _ _).mp (by simpa [closedCheck] using hc)
    apply ih _ hc2.2
    intro k v hkv
    have hm := mem_processEvent myPkg st e k v hkv
    rcases hm.1 with hnew | hold
    · obtain ⟨hpk, hty, hsys⟩ := hnew
      refine ⟨hsys, ?_⟩
      have hany : rest.any (isBgEventFor k) = true := by
        obtain ⟨epkg, ety, ets⟩ := e
        simp only at hpk hty
        subst hpk
        subst hty
        simpa using hc2.1
      obtain ⟨e2, he2, hbg⟩ := List.any_eq_true.mp hany
      rw [isBgEventFor, Bool.and_eq_true] at hbg
      exact ⟨e2, he2, by simpa using hbg.1, by simpa using hbg.2⟩
    · obtain ⟨hsys, e2, he2, hpk2, hty2⟩ := hks k v hold
      refine ⟨hsys, ?_⟩
      rcases List.mem_cons.mp he2 with rfl | he2'
      · exact absurd ⟨hpk2, hty2, hsys⟩ hm.2
      · exact ⟨e2, he2', hpk2, hty2⟩

/-- **C2, counterexample.**  The window `[FG(app.a, 5), BG(app.a, 10)]`
satisfies the claim's hypothesis (every foreground event is later
backgrounded), yet the resolver does not return none or fall back to the
stats query: it resolves the backgrounded `app.a` through the
`events-recent` fallback. -/
theorem c2_backgrounded_counterexample :
    closedCheck [fgEv "app.a" 5, bgEv "app.a" 10] = true ∧
      getForegroundAppName (mkEventsEnv [fgEv "app.a" 5, bgEv "app.a" 10]) 1000
        = .resolved "app.a|app.a|events-recent-pkg|states:0, nameMethod:x" :=
  ⟨rfl, rfl⟩

/-- **C2, amended.**  If every `ToForeground(a)` is followed by a
`ToBackground(a)` before the window ends, the replay map is indeed empty
after replay, but the resolver then falls back to the single most recent
`ToForeground` event of the whole window regardless of backgrounding (the
`events-recent` branch) whenever such an event was tracked — only when no
foreground event was tracked does it fall through to the aggregate
usage-stats query. -/
theorem c2_empty_map_recent_fallback_amended :
    (∀ myPkg evs, closedCheck evs = true →
      (replayEvents myPkg evs).appStates = []) ∧
    (∀ (env : AndroidEnv) (evs : List UsageEvent) (p : String),
      closedCheck evs = true →
      (replayEvents env.myPackageName evs).lastForegroundPackage = some p →
      (eventsSection env evs).2.1 = some p ∧
        ((eventsSection env evs).2.2.1 = "events-recent" ∨
          (eventsSection env evs).2.2.1 = "events-recent-pkg")) := by
  have hempty : ∀ myPkg evs, closedCheck evs = true →
      (replayEvents myPkg evs).appStates = [] := by
    intro myPkg evs hc
    apply replay_closed_aux myPkg evs initialReplayState hc
    intro k v hkv
    simp [initialReplayState] at hkv
  refine ⟨hempty, ?_⟩
  intro env evs p hc hlast
  have hmap := hempty env.myPackageName evs hc
  simp only [eventsSection, hmap, hlast, List.isEmpty_nil, if_true]
  rcases hl : (env.getAppNameFromPackage p).1 with _ | n
  · simp [hl]
  · by_cases hn : n.isEmpty = true
    · simp [hl, hn]
    · simp [hl, hn]

/-- Witness for `c2_empty_map_recent_fallback_amended` at the concrete window
`[FG(app.a, 5), BG(app.a, 9)]`. -/
theorem c2_empty_map_recent_fallback_amended_witness :
    (replayEvents testMyPkg [fgEv "app.a" 5, bgEv "app.a" 9]).appStates = [] ∧
      ((eventsSection (mkEventsEnv [fgEv "app.a" 5, bgEv "app.a" 9])
          [fgEv "app.a" 5, bgEv "app.a" 9]).2.1 = some "app.a" ∧
        ((eventsSection (mkEventsEnv [fgEv "app.a" 5, bgEv "app.a" 9])
            [fgEv "app.a" 5, bgEv "app.a" 9]).2.2.1 = "events-recent" ∨
          (eventsSection (mkEventsEnv [fgEv "app.a" 5, bgEv "app.a" 9])
            [fgEv "app.a" 5, bgEv "app.a" 9]).2.2.1 = "events-recent-pkg")) :=
  ⟨c2_empty_map_recent_fallback_amended.1 testMyPkg
      [fgEv "app.a" 5, bgEv "app.a" 9] (by decide),
   c2_empty_map_recent_fallback_amended.2
      (mkEventsEnv [fgEv "app.a" 5, bgEv "app.a" 9])
      [fgEv "app.a" 5, bgEv "app.a" 9] "app.a" (by decide) (by decide)⟩

/-! ## C3: the promise always resolves; the pipe-delimited format -/

/-- Number of pipe delimiters in a string: a well-formed four-field bridge
result has exactly three. -/
def pipeCount (s : String) : Nat := s.data.count '|'

theorem pipeCount_append (a b : String) :
    pipeCount (a ++ b) = pipeCount a + pipeCount b := by
  show (a ++ b).data.count '|' = a.data.count '|' + b.data.count '|'
  have h : (a ++ b).data = a.data ++ b.data := rfl
  rw [h, List.count_append]

theorem digitChar_ge16 (n : Nat) (h : 16 ≤ n) : Nat.digitChar n = '*' := by
  unfold Nat.digitChar
  repeat' rw [if_neg (by omega)]

theorem digitChar_ne_pipe (n : Nat) : Nat.digitChar n ≠ '|' := by
  by_cases h : n < 16
  · interval_cases n <;> decide
  · rw [digitChar_ge16 n (by omega)]
    decide

theorem toDigitsCore_ne_pipe :
    ∀ (fuel n : Nat) (ds : List Char), (∀ c ∈ ds, c ≠ '|') →
      ∀ c ∈ Nat.toDigitsCore 10 fuel n ds, c ≠ '|' := by
  intro fuel
  induction fuel with
  | zero =>
    intro n ds hds c hc
    exact hds c hc
  | succ fuel ih =>
    intro n ds hds c hc
    rw [Nat.toDigitsCore] at hc
    by_cases hz : n / 10 = 0
    · rw [if_pos hz] at hc
      rcases List.mem_cons.mp hc with rfl | hc'
      · exact digitChar_ne_pipe _
      · exact hds c hc'
    · rw [if_neg hz] at hc
      refine ih (n / 10) (Nat.digitChar (n % 10) :: ds) ?_ c hc
      intro c' hc'
      rcases List.mem_cons.mp hc' with rfl | hc''
      · exact digitChar_ne_pipe _
      · exact hds c' hc''

theorem pipeCount_natRepr (n : Nat) : pipeCount (Nat.repr n) = 0 := by
  have h : ∀ c ∈ Nat.toDigits 10 n, c ≠ '|' :=
    toDigitsCore_ne_pipe (n + 1) n [] (by simp)
  show (Nat.repr n).data.count '|' = 0
  have hd : (Nat.repr n).data = Nat.toDigits 10 n := rfl
  rw [hd, List.count_eq_zero]
  intro hmem
  exact h '|' hmem rfl

def pipeFreeOpt : Option String → Prop
  | none => True
  | some s => pipeCount s = 0

/-- Pipe-freeness of the four resolver variables. -/
def pfVars (r : ResolverVars) : Prop :=
  pipeFreeOpt r.1 ∧ pipeFreeOpt r.2.1 ∧
    pipeCount r.2.2.1 = 0 ∧ pipeCount r.2.2.2 = 0

theorem pipeCount_concat4 (a b c d : String) (ha : pipeCount a = 0)
    (hb : pipeCount b = 0) (hc : pipeCount c = 0) (hd : pipeCount d = 0) :
    pipeCount (a ++ b ++ c ++ d) = 0 := by
  simp [pipeCount_append, ha, hb, hc, hd]

theorem pipeCount_fourFields (a p m d : String) (ha : pipeCount a = 0)
    (hp : pipeCount p = 0) (hm : pipeCount m = 0) (hd : pipeCount d = 0) :
    pipeCount (a ++ "|" ++ p ++ "|" ++ m ++ "|" ++ d) = 3 := by
  have hbar : pipeCount "|" = 1 := by decide
  simp [pipeCount_append, ha, hp, hm, hd, hbar]

/-- Pipe-freeness hypotheses on the collaborators: application labels,
name-method/debug strings and package identifiers contain no `|`. -/
def AndroidEnvPipeFree (env : AndroidEnv) : Prop :=
  (∀ p n, (env.getAppNameFromPackage p).1 = some n → pipeCount n = 0) ∧
  (∀ p, pipeCount (env.getAppNameFromPackage p).2 = 0) ∧
  (∀ evs, env.queryEventsResult = .ok (some evs) →
    ∀ e ∈ evs, ∀ p, e.packageName = some p → pipeCount p = 0) ∧
  (∀ stats, env.queryStatsResult = .ok (some stats) →
    ∀ s ∈ stats, pipeCount s.packageName = 0)

theorem eventsSection_pfVars (env : AndroidEnv) (evs : List UsageEvent)
    (hlook1 : ∀ p n, (env.getAppNameFromPackage p).1 = some n → pipeCount n = 0)
    (hlook2 : ∀ p, pipeCount (env.getAppNameFromPackage p).2 = 0)
    (hev : ∀ e ∈ evs, ∀ p, e.packageName = some p → pipeCount p = 0) :
    pfVars (eventsSection env evs) := by
  have hkey : ∀ k v, (k, v) ∈ (replayEvents env.myPackageName evs).appStates →
      pipeCount k = 0 := by
    intro k v hkv
    rcases mem_foldl_processEvent env.myPackageName evs initialReplayState k v hkv
      with hex | hmem
    · obtain ⟨e, he, hp⟩ := hex
      exact hev e he k hp
    · simp [initialReplayState] at hmem
  have hlast : ∀ p,
      (replayEvents env.myPackageName evs).lastForegroundPackage = some p →
      pipeCount p = 0 := by
    intro p hp
    rcases lastFg_foldl env.myPackageName evs initialReplayState p hp
      with hex | hmem
    · obtain ⟨e, he, hp2⟩ := hex
      exact hev e he p hp2
    · simp [initialReplayState] at hmem
  have hsz : pipeCount
      (Nat.repr (replayEvents env.myPackageName evs).appStates.length) = 0 :=
    pipeCount_natRepr _
  by_cases hemp : (replayEvents env.myPackageName evs).appStates.isEmpty = true
  · rcases hlf : (replayEvents env.myPackageName evs).lastForegroundPackage
      with _ | p
    · simp only [eventsSection, hemp, if_true, hlf]
      exact ⟨trivial, trivial, by rfl,
        by simp only [pipeCount_append, hsz]; decide⟩
    · have hp0 : pipeCount p = 0 := hlast p hlf
      have hlk := hlook2 p
      rcases hl : (env.getAppNameFromPackage p).1 with _ | n
      · simp only [eventsSection, hemp, if_true, hlf, hl]
        exact ⟨hp0, hp0, by rfl,
          by simp only [pipeCount_append, hsz, hlk]; decide⟩
      · have hn0 : pipeCount n = 0 := hlook1 p n hl
        by_cases hn : n.isEmpty = true
        · simp only [eventsSection, hemp, if_true, hlf, hl, hn]
          exact ⟨hp0, hp0, by rfl,
            by simp only [pipeCount_append, hsz, hlk]; decide⟩
        · simp only [eventsSection, hemp, if_true, hlf, hl, hn,
            Bool.false_eq_true, if_false]
          exact ⟨hn0, hp0, by rfl,
            by simp only [pipeCount_append, hsz, hlk]; decide⟩
  · cases hm : maxByNat Prod.snd (replayEvents env.myPackageName evs).appStates
      with
    | none =>
      exfalso
      cases hms : (replayEvents env.myPackageName evs).appStates with
      | nil => rw [hms] at hemp; exact hemp rfl
      | cons q rest => rw [hms] at hm; simp [maxByNat] at hm
    | some cur =>
      have hemp' : (replayEvents env.myPackageName evs).appStates.isEmpty = false := by
        rcases Bool.eq_false_or_eq_true
          ((replayEvents env.myPackageName evs).appStates.isEmpty) with h' | h'
        · exact absurd h' hemp
        · exact h'
      have hcur : pipeCount cur.1 = 0 :=
        hkey cur.1 cur.2 (by exact maxByNat_mem _ _ _ hm)
      have hlk := hlook2 cur.1
      rcases hl : (env.getAppNameFromPackage cur.1).1 with _ | n
      · simp only [eventsSection, hemp', Bool.false_eq_true, if_false, hm, hl]
        exact ⟨hcur, hcur, by rfl,
          by simp only [pipeCount_append, hsz, hlk]; decide⟩
      · have hn0 : pipeCount n = 0 := hlook1 cur.1 n hl
        by_cases hn : n.isEmpty = true
        · simp only [eventsSection, hemp', Bool.false_eq_true, if_false, hm, hl, hn,
            if_true]
          exact ⟨hcur, hcur, by rfl,
            by simp only [pipeCount_append, hsz, hlk]; decide⟩
        · simp only [eventsSection, hemp', Bool.false_eq_true, if_false, hm, hl, hn]
          exact ⟨hn0, hcur, by rfl,
            by simp only [pipeCount_append, hsz, hlk]; decide⟩

theorem statsSection_pfVars (env : AndroidEnv) (t : Nat)
    (stats : List UsageStat) (acc : ResolverVars)
    (hlook1 : ∀ p n, (env.getAppNameFromPackage p).1 = some n → pipeCount n = 0)
    (hlook2 : ∀ p, pipeCount (env.getAppNameFromPackage p).2 = 0)
    (hstats : ∀ s ∈ stats, pipeCount s.packageName = 0)
    (hacc : pfVars acc) : pfVars (statsSection env t stats acc) := by
  by_cases h1 : stats.isEmpty = true
  · simpa [statsSection, h1] using hacc
  · have h1' : stats.isEmpty = false := by
      rcases Bool.eq_false_or_eq_true stats.isEmpty with h' | h'
      · exact absurd h' h1
      · exact h'
    by_cases h2 : (stats.filter
        (fun s => !isSystemPackage env.myPackageName (some s.packageName))).isEmpty = true
    · simpa [statsSection, h1', h2] using hacc
    · have h2' : (stats.filter
          (fun s => !isSystemPackage env.myPackageName (some s.packageName))).isEmpty
            = false := by
        rcases Bool.eq_false_or_eq_true _ with h' | h'
        · exact absurd h' h2
        · exact h'
      cases hfa : (if !((stats.filter
            (fun s => !isSystemPackage env.myPackageName (some s.packageName))).filter
              (fun s => s.lastTimeUsed ≥ t - 5000)).isEmpty then
          maxByNat UsageStat.lastTimeUsed
            ((stats.filter
              (fun s => !isSystemPackage env.myPackageName (some s.packageName))).filter
                (fun s => s.lastTimeUsed ≥ t - 5000))
        else
          maxByNat UsageStat.lastTimeUsed
            (stats.filter
              (fun s => !isSystemPackage env.myPackageName (some s.packageName)))) with
      | none =>
        simp only [statsSection, h1', Bool.false_eq_true, if_false, h2', hfa]
        exact ⟨hacc.1, hacc.2.1, by rfl,
          by simp only [pipeCount_append, pipeCount_natRepr]; decide⟩
      | some fa =>
        have hmem : fa ∈ stats := by
          split at hfa
          · have h3 := maxByNat_mem _ _ _ hfa
            exact (List.mem_filter.mp ((List.mem_filter.mp h3).1)).1
          · have h3 := maxByNat_mem _ _ _ hfa
            exact (List.mem_filter.mp h3).1
        have hpkg : pipeCount fa.packageName = 0 := hstats fa hmem
        have hlk := hlook2 fa.packageName
        rcases hl : (env.getAppNameFromPackage fa.packageName).1 with _ | n
        · simp only [statsSection, h1', Bool.false_eq_true, if_false, h2', hfa, hl]
          exact ⟨hpkg, hpkg, by rfl,
            by simp only [pipeCount_append, pipeCount_natRepr, hlk]; decide⟩
        · have hn0 : pipeCount n = 0 := hlook1 fa.packageName n hl
          by_cases hn : n.isEmpty = true
          · simp only [statsSection, h1', Bool.false_eq_true, if_false, h2', hfa, hl,
              hn, if_true]
            exact ⟨hpkg, hpkg, by rfl,
              by simp only [pipeCount_append, pipeCount_natRepr, hlk]; decide⟩
          · simp only [statsSection, h1', Bool.false_eq_true, if_false, h2', hfa, hl,
              hn]
            exact ⟨hn0, hpkg, by rfl,
              by simp only [pipeCount_append, pipeCount_natRepr, hlk]; decide⟩

theorem formatResult_pipeCount (a p : Option String) (m d : String)
    (h : pfVars (a, p, m, d)) :
    pipeCount (formatResult (.fields a p m d)) = 3 := by
  obtain ⟨ha, hp, hm, hd⟩ := h
  cases a with
  | none =>
    show pipeCount ("null|null|" ++ m ++ "|" ++ d) = 3
    simp only [pipeCount_append, hm, hd]
    decide
  | some av =>
    have ha' : pipeCount av = 0 := ha
    cases p with
    | none =>
      show pipeCount (av ++ "|" ++ "unknown" ++ "|" ++ m ++ "|" ++ d) = 3
      exact pipeCount_fourFields av "unknown" m d ha' (by decide) hm hd
    | some pv =>
      have hp' : pipeCount pv = 0 := hp
      exact pipeCount_fourFields av pv m d ha' hp' hm hd

/-- Environment in which the usage-stats subsystem itself throws (e.g. the
service lookup fails / permission missing). -/
def envUsageStatsThrows : AndroidEnv :=
  { mkEventsEnv [] with usageStatsThrows := true }

/-- **C3, counterexample.**  When the usage-stats subsystem throws, the
promise resolves the bare sentinel string `"null"` (line 278 of
`ForegroundAppModule.kt`), which is not a pipe-delimited four-field string
(it contains zero pipes instead of three). -/
theorem c3_bare_null_counterexample :
    getForegroundAppName envUsageStatsThrows 0 = .resolved "null" ∧
      ¬ pipeCount "null" = 3 :=
  ⟨rfl, by decide⟩

/-- **C3, amended.**  `getForegroundAppName` settles by resolving on every
path — it never rejects, whatever the collaborators do, including when the
usage-statistics collaborator throws.  The resolved value is the
pipe-delimited four-field string `appName|packageName|method|debugInfo`
(exactly three pipe delimiters, given that collaborator-provided names and
package identifiers contain no pipes) on every path except the
usage-stats-unavailable path, which resolves the bare sentinel `"null"`. -/
theorem c3_resolve_format_amended :
    (∀ (env : AndroidEnv) (t : Nat),
      ∃ s, getForegroundAppName env t = .resolved s) ∧
    (∀ (env : AndroidEnv) (t : Nat), AndroidEnvPipeFree env →
      ∃ s, getForegroundAppName env t = .resolved s ∧
        (s = "null" ∨ pipeCount s = 3)) := by
  constructor
  · intro env t
    exact ⟨_, rfl⟩
  · intro env t henv
    obtain ⟨hl1, hl2, hev, hst⟩ := henv
    refine ⟨_, rfl, ?_⟩
    have hkey : ∀ r : ResolverVars, pfVars r →
        formatResult (.fields r.1 r.2.1 r.2.2.1 r.2.2.2) = "null" ∨
          pipeCount (formatResult (.fields r.1 r.2.1 r.2.2.1 r.2.2.2)) = 3 := by
      intro r hr
      exact Or.inr (formatResult_pipeCount r.1 r.2.1 r.2.2.1 r.2.2.2 hr)
    unfold resolveForeground
    by_cases hsdk : env.sdkAtLeastLollipopMr1 = true
    · simp only [hsdk, Bool.not_true, Bool.false_eq_true, if_false]
      by_cases hth : env.usageStatsThrows = true
      · simp only [hth, if_true]
        exact Or.inl rfl
      · have hth' : env.usageStatsThrows = false := by
          rcases Bool.eq_false_or_eq_true env.usageStatsThrows with h' | h'
          · exact absurd h' hth
          · exact h'
        simp only [hth', Bool.false_eq_true, if_false]
        have hafter : ∀ after : ResolverVars, pfVars after →
            (formatResult
              (if after.1.isSome then
                 .fields after.1 after.2.1 after.2.2.1 after.2.2.2
               else
                 match env.queryStatsResult with
                 | .error _ => .earlyNull
                 | .ok none =>
                   .fields after.1 after.2.1 after.2.2.1 after.2.2.2
                 | .ok (some stats) =>
                   let r := statsSection env t stats after
                   .fields r.1 r.2.1 r.2.2.1 r.2.2.2) = "null" ∨
             pipeCount (formatResult
              (if after.1.isSome then
                 .fields after.1 after.2.1 after.2.2.1 after.2.2.2
               else
                 match env.queryStatsResult with
                 | .error _ => .earlyNull
                 | .ok none =>
                   .fields after.1 after.2.1 after.2.2.1 after.2.2.2
                 | .ok (some stats) =>
                   let r := statsSection env t stats after
                   .fields r.1 r.2.1 r.2.2.1 r.2.2.2)) = 3) := by
          intro after hafterPf
          by_cases hs : after.1.isSome
          · simp only [hs, if_true]
            exact hkey after hafterPf
          · simp only [hs, Bool.false_eq_true, if_false]
            cases hq : env.queryStatsResult with
            | error e => exact Or.inl rfl
            | ok statsOpt =>
              cases statsOpt with
              | none => exact hkey after hafterPf
              | some stats =>
                exact hkey (statsSection env t stats after)
                  (statsSection_pfVars env t stats after hl1 hl2
                    (hst stats hq) hafterPf)
        cases hqe : env.queryEventsResult with
        | error e =>
          exact hafter (none, none, "none", "") ⟨trivial, trivial, by rfl, by rfl⟩
        | ok evsOpt =>
          cases evsOpt with
          | none =>
            exact hafter (none, none, "none", "") ⟨trivial, trivial, by rfl, by rfl⟩
          | some evs =>
            exact hafter (eventsSection env evs)
              (eventsSection_pfVars env evs hl1 hl2 (hev evs hqe))
    · have hsdk' : env.sdkAtLeastLollipopMr1 = false := by
        rcases Bool.eq_false_or_eq_true env.sdkAtLeastLollipopMr1 with h' | h'
        · exact absurd h' hsdk
        · exact h'
      simp only [hsdk', Bool.not_false, if_true]
      right
      exact formatResult_pipeCount none none "none" ""
        ⟨trivial, trivial, by rfl, by rfl⟩

/-- Witness for `c3_resolve_format_amended` on a concrete environment. -/
theorem c3_resolve_format_amended_witness :
    (∃ s, getForegroundAppName (mkEventsEnv []) 0 = .resolved s) ∧
      ∃ s, getForegroundAppName (mkEventsEnv []) 0 = .resolved s ∧
        (s = "null" ∨ pipeCount s = 3) :=
  ⟨c3_resolve_format_amended.1 (mkEventsEnv []) 0,
   c3_resolve_format_amended.2 (mkEventsEnv []) 0
     (by
       refine ⟨?_, ?_, ?_, ?_⟩
       · intro p n h
         exact Option.noConfusion h
       · intro p
         rfl
       · intro evs h e he p hp
         injection h with h1
         injection h1 with h2
         rw [← h2] at he
         simp at he
       · intro stats h
         injection h with h1
         exact Option.noConfusion h1)⟩

/-! ## Mobile relay transport: `DesktopRPC` (src/unnamed/part_000) -/

/-- JavaScript truthiness of the numeric `this.lastUpdate` (`null` and `0`
are falsy). -/
def jsTruthyNat : Option Nat → Bool
  | none => false
  | some n => n != 0

/-- Mutable state of the `DesktopRPC` singleton used by `setActivity`. -/
structure RPCState where
  desktopIPSet : Bool
  isEnabled : Bool
  lastUpdate : Option Nat
  lastPackageName : Option String
deriving DecidableEq

/-- `this.updateThrottle = 2000`. -/
def updateThrottle : Nat := 2000

/-- The `isConnected` getter: `this.isEnabled && this.desktopIP !== null`. -/
def rpcIsConnected (st : RPCState) : Bool := st.isEnabled && st.desktopIPSet

/-- The throttle test of `setActivity` (line 101): `this.lastPackageName ===
packageName && this.lastUpdate && (now - this.lastUpdate) <
this.updateThrottle`. -/
def throttled (st : RPCState) (packageName : String) (now : Nat) : Bool :=
  st.lastPackageName == some packageName && jsTruthyNat st.lastUpdate &&
    (match st.lastUpdate with
     | some lu => decide (now - lu < updateThrottle)
     | none => false)

inductive SendResult
  | noopDisabled
  | throttleSkipped
  | sent
  | failed
deriving DecidableEq

/-- `DesktopRPC.setActivity(displayName, packageName, clientId)`; `fetchOk`
says whether the POST to `/update-presence` comes back with an ok status.
The throttle state (`lastUpdate`, `lastPackageName`) is written only after a
successful response; every failure is swallowed. -/
def setActivity (st : RPCState) (displayName packageName : String)
    (clientId : Option String) (now : Nat) (fetchOk : Bool) :
    RPCState × SendResult :=
  if !(st.isEnabled && st.desktopIPSet) then (st, .noopDisabled)
  else if throttled st packageName now then (st, .throttleSkipped)
  else if fetchOk then
    ({ st with lastUpdate := some now, lastPackageName := some packageName },
      .sent)
  else (st, .failed)

def enabledRPCState : RPCState :=
  { desktopIPSet := true, isEnabled := true, lastUpdate := none,
    lastPackageName := none }

/-- **C4, counterexample.**  `DesktopRPC.setActivity` called with the
empty/unknown indicators `displayName = "null"`, `packageName = "unknown"`
does NOT route to the clear endpoint: it performs the POST to
`/update-presence` (`.sent`) and even records the send in the throttle
state.  No null/unknown check exists in `setActivity` of
`src/unnamed/part_000` (lines 94–142). -/
theorem c4_setActivity_counterexample :
    setActivity enabledRPCState "null" "unknown" none 1000 true
      = ({ enabledRPCState with lastUpdate := some 1000, lastPackageName := some "unknown" }, .sent) := rfl

/-- **C7.**  The `DesktopRPC.setActivity` throttle: a send for the same
`packageName` as the immediately preceding successful send, issued less than
2000 ms after it, is skipped silently; a send for a package different from
the recorded one is never throttled — it attempts the POST immediately,
whatever the elapsed time; and the throttle state is updated exactly by the
successful sends.  (`0 < t1` reflects that `Date.now()` is a positive epoch
timestamp: JavaScript treats a `lastUpdate` of `0` as falsy.) -/
theorem c7_throttle_same_app_only :
    (∀ (st : RPCState) (d1 d2 pkg : String) (c1 c2 : Option String)
        (t1 t2 : Nat) (ok2 : Bool),
      0 < t1 →
      (setActivity st d1 pkg c1 t1 true).2 = .sent →
      t2 - t1 < updateThrottle →
      setActivity (setActivity st d1 pkg c1 t1 true).1 d2 pkg c2 t2 ok2
        = ((setActivity st d1 pkg c1 t1 true).1, .throttleSkipped)) ∧
    (∀ (st : RPCState) (d pkg2 : String) (c : Option String) (t : Nat)
        (ok : Bool),
      rpcIsConnected st = true →
      st.lastPackageName ≠ some pkg2 →
      (setActivity st d pkg2 c t ok).2 = .sent ∨
        (setActivity st d pkg2 c t ok).2 = .failed) ∧
    (∀ (st : RPCState) (d pkg : String) (c : Option String) (t : Nat)
        (ok : Bool),
      ((setActivity st d pkg c t ok).2 = .sent →
        (setActivity st d pkg c t ok).1
          = { st with lastUpdate := some t, lastPackageName := some pkg }) ∧
      ((setActivity st d pkg c t ok).2 ≠ .sent →
        (setActivity st d pkg c t ok).1 = st)) := by
  have hshape : ∀ (st : RPCState) (d pkg : String) (c : Option String)
      (t : Nat) (ok : Bool),
      ((setActivity st d pkg c t ok).2 = .sent →
        (setActivity st d pkg c t ok).1
          = { st with lastUpdate := some t, lastPackageName := some pkg }) ∧
      ((setActivity st d pkg c t ok).2 ≠ .sent →
        (setActivity st d pkg c t ok).1 = st) := by
    intro st d pkg c t ok
    unfold setActivity
    by_cases h1 : (st.isEnabled && st.desktopIPSet) = true
    · simp only [h1, Bool.not_true, Bool.false_eq_true, if_false]
      by_cases h2 : throttled st pkg t = true
      · simp only [h2, if_true]
        exact ⟨fun h => SendResult.noConfusion h, fun _ => trivial⟩
      · simp only [h2, Bool.false_eq_true, if_false]
        cases ok with
        | true => exact ⟨fun _ => rfl, fun h => absurd rfl h⟩
        | false =>
          simp only [Bool.false_eq_true, if_false]
          exact ⟨fun h => SendResult.noConfusion h, fun _ => trivial⟩
    · have h1' : (st.isEnabled && st.desktopIPSet) = false := by
        rcases Bool.eq_false_or_eq_true (st.isEnabled && st.desktopIPSet)
          with h' | h'
        · exact absurd h' h1
        · exact h'
      simp only [h1', Bool.not_false, if_true]
      exact ⟨fun h => SendResult.noConfusion h, fun _ => trivial⟩
  refine ⟨?_, ?_, hshape⟩
  · intro st d1 d2 pkg c1 c2 t1 t2 ok2 ht1 hsent hwin
    have hst1 : (setActivity st d1 pkg c1 t1 true).1
        = { st with lastUpdate := some t1, lastPackageName := some pkg } :=
      (hshape st d1 pkg c1 t1 true).1 hsent
    have hen : (st.isEnabled && st.desktopIPSet) = true := by
      by_contra hcon
      have h1' : (st.isEnabled && st.desktopIPSet) = false := by
        rcases Bool.eq_false_or_eq_true (st.isEnabled && st.desktopIPSet)
          with h' | h'
        · exact absurd h' hcon
        · exact h'
      rw [setActivity, h1'] at hsent
      simp at hsent
    have hthr : throttled { st with lastUpdate := some t1, lastPackageName := some pkg } pkg t2 = true := by
      unfold throttled jsTruthyNat
      simp only [updateThrottle]
      have : (t1 != 0) = true := by
        simp only [bne_iff_ne, ne_eq]
        omega
      simp [this]
      exact hwin
    rw [hst1]
    unfold setActivity
    simp only [hen, Bool.not_true, Bool.false_eq_true, if_false, hthr, if_true]
  · intro st d pkg2 c t ok hconn hdiff
    have hen : (st.isEnabled && st.desktopIPSet) = true := hconn
    have hthr : throttled st pkg2 t = false := by
      unfold throttled
      have : (st.lastPackageName == some pkg2) = false := by
        rcases Bool.eq_false_or_eq_true (st.lastPackageName == some pkg2)
          with h' | h'
        · exact absurd (eq_of_beq h') hdiff
        · exact h'
      simp [this]
    unfold setActivity
    simp only [hen, Bool.not_true, Bool.false_eq_true, if_false, hthr]
    cases ok with
    | true => exact Or.inl (by simp)
    | false => exact Or.inr (by simp)

/-- Witness for `c7_throttle_same_app_only`: at concrete inputs, a repeat
send for the same package 1000 ms later is throttle-skipped, and a send for
a different package is attempted. -/
theorem c7_throttle_same_app_only_witness :
    setActivity (setActivity enabledRPCState "A" "com.a" none 5000 true).1
        "A" "com.a" none 6000 true
      = ((setActivity enabledRPCState "A" "com.a" none 5000 true).1,
          .throttleSkipped) ∧
    ((setActivity { enabledRPCState with lastUpdate := some 5000, lastPackageName := some "com.a" } "B" "com.b" none 5500 true).2
        = .sent ∨
      (setActivity { enabledRPCState with lastUpdate := some 5000, lastPackageName := some "com.a" } "B" "com.b" none 5500 true).2
        = .failed) :=
  ⟨c7_throttle_same_app_only.1 enabledRPCState "A" "A" "com.a" none none
      5000 6000 true (by decide) (by decide) (by decide),
   c7_throttle_same_app_only.2.1 { enabledRPCState with lastUpdate := some 5000, lastPackageName := some "com.a" }
      "B" "com.b" none 5500 true (by decide) (by decide)⟩

/-! ## Mobile per-tick gate: `updateNotificationWithForegroundApp`
(src/unnamed/part_005, with `updateDiscord = true`) -/

structure MobState where
  lastUpdatedPackage : Option String
  rpc : RPCState
deriving DecidableEq

/-- Per-tick collaborator environment: the AsyncStorage-backed lookups and
the network outcome of this tick's send. -/
structure TickEnv where
  clientIds : String → Option String
  enabledApps : String → Bool
  customNames : String → Option String
  now : Nat
  fetchOk : Bool

inductive MobAction
  | notif (title body : String)
  | clearCall
  | sendAttempt (r : SendResult)
deriving DecidableEq

/-- `isAppEnabled`: enabled only when a CLIENT_ID is set *and* the app is
explicitly toggled on. -/
def isAppEnabled (env : TickEnv) (packageName : String) : Bool :=
  match env.clientIds packageName with
  | some _ => env.enabledApps packageName
  | none => false

/-- `getDisplayName`: the custom name if present, else the package name. -/
def getDisplayName (env : TickEnv) (packageName : String) : String :=
  match env.customNames packageName with
  | some n => n
  | none => packageName

/-- `isNullApp` (line 148): `!appName || appName === 'null' || !packageName
|| packageName === 'null' || packageName === 'unknown'`. -/
def isNullApp (appName packageName : String) : Bool :=
  appName == "" || appName == "null" || packageName == "" ||
    packageName == "null" || packageName == "unknown"

/-- `updateDiscordRPC`: skip when not connected or no CLIENT_ID, else call
`desktopRPC.setActivity` with the package's CLIENT_ID. -/
def updateDiscordRPC (env : TickEnv) (rpc : RPCState)
    (displayName packageName : String) : RPCState × Option SendResult :=
  if !(rpcIsConnected rpc) then (rpc, none)
  else
    match env.clientIds packageName with
    | none => (rpc, none)
    | some clientId =>
      let r := setActivity rpc displayName packageName (some clientId)
        env.now env.fetchOk
      (r.1, some r.2)

/-- One poll tick of `updateNotificationWithForegroundApp` after parsing the
bridge string, with `updateDiscord = true`.  Returns the updated trackers
and the list of emitted actions in order. -/
def tickParsed (st : MobState) (env : TickEnv) (appName packageName : String) :
    MobState × List MobAction :=
  if isNullApp appName packageName then
    if st.lastUpdatedPackage.isSome && rpcIsConnected st.rpc then
      ({ st with lastUpdatedPackage := none },
        [.notif "No app detected" "", .clearCall])
    else (st, [.notif "No app detected" ""])
  else
    if isAppEnabled env packageName then
      let displayName := getDisplayName env packageName
      let clearActs : List MobAction :=
        if st.lastUpdatedPackage.isSome &&
            !(st.lastUpdatedPackage == some packageName) &&
            rpcIsConnected st.rpc then [.clearCall] else []
      if rpcIsConnected st.rpc then
        let r := updateDiscordRPC env st.rpc displayName packageName
        ({ lastUpdatedPackage := some packageName, rpc := r.1 },
          [MobAction.notif displayName packageName] ++ clearActs ++
            (match r.2 with
             | some sr => [MobAction.sendAttempt sr]
             | none => []))
      else
        (st, [MobAction.notif displayName packageName] ++ clearActs)
    else
      if st.lastUpdatedPackage.isSome && rpcIsConnected st.rpc then
        ({ st with lastUpdatedPackage := none },
          [.notif "No app detected" "", .clearCall])
      else (st, [.notif "No app detected" ""])

/-- `result.split('|')` and `parts[i] || dflt`. -/
def jsPart (parts : List String) (i : Nat) (dflt : String) : String :=
  match parts.get? i with
  | some s => if s == "" then dflt else s
  | none => dflt

/-- The whole tick from the raw bridge string. -/
def tick (st : MobState) (env : TickEnv) (raw : String) :
    MobState × List MobAction :=
  let parts := raw.splitOn "|"
  tickParsed st env (jsPart parts 0 "null") (jsPart parts 1 "unknown")

/-- **C5.**  When a tick resolves a null app while a previously active app
was being shown (`lastUpdatedPackage` set) and the transport is connected,
exactly one clear is emitted and the tracker is reset to none; a second
consecutive null tick emits no further clear. -/
theorem c5_clear_once_then_noop (st : MobState) (env env2 : TickEnv)
    (a1 p1 a2 p2 a : String)
    (hprev : st.lastUpdatedPackage = some a)
    (hconn : rpcIsConnected st.rpc = true)
    (hn1 : isNullApp a1 p1 = true) (hn2 : isNullApp a2 p2 = true) :
    (tickParsed st env a1 p1).2.count .clearCall = 1 ∧
      (tickParsed st env a1 p1).1.lastUpdatedPackage = none ∧
      (tickParsed (tickParsed st env a1 p1).1 env2 a2 p2).2.count
          .clearCall = 0 := by
  have h1 : tickParsed st env a1 p1
      = ({ st with lastUpdatedPackage := none },
          [.notif "No app detected" "", .clearCall]) := by
    unfold tickParsed
    simp [hn1, hprev, hconn]
  refine ⟨by rw [h1]; rfl, by rw [h1], ?_⟩
  rw [h1]
  unfold tickParsed
  simp [hn2]

/-- Witness for `c5_clear_once_then_noop` at a concrete state. -/
def testRPCStateA : RPCState :=
  { desktopIPSet := true, isEnabled := true, lastUpdate := some 5000,
    lastPackageName := some "com.a" }

def testMobStateA : MobState :=
  { lastUpdatedPackage := some "com.a", rpc := testRPCStateA }

def testTickEnv : TickEnv :=
  { clientIds := fun p => if p == "com.b" then some "cid-b" else none
    enabledApps := fun p => p == "com.b"
    customNames := fun _ => none
    now := 10000
    fetchOk := true }

theorem c5_clear_once_then_noop_witness :
    (tickParsed testMobStateA testTickEnv "null" "null").2.count .clearCall = 1 ∧
      (tickParsed testMobStateA testTickEnv "null" "null").1.lastUpdatedPackage
        = none ∧
      (tickParsed (tickParsed testMobStateA testTickEnv "null" "null").1
          testTickEnv "null" "null").2.count .clearCall = 0 :=
  c5_clear_once_then_noop testMobStateA testTickEnv testTickEnv
    "null" "null" "null" "null" "com.a" rfl rfl rfl rfl

/-- **C6.**  Switching from active app `a` to a different enabled app `b`
emits a Clear followed by an Emit for `b` (in that order, after the
notification update); switching from `a` to a disabled/unconfigured app
emits only a Clear and resets the tracker. -/
theorem c6_switch_clear_then_emit :
    (∀ (st : MobState) (env : TickEnv) (an b a cid : String),
      st.lastUpdatedPackage = some a →
      st.rpc.lastPackageName = some a →
      rpcIsConnected st.rpc = true →
      isNullApp an b = false →
      a ≠ b →
      env.clientIds b = some cid →
      env.enabledApps b = true →
      ∃ sr, tickParsed st env an b
          = ({ lastUpdatedPackage := some b,
                rpc := (setActivity st.rpc (getDisplayName env b) b (some cid)
                  env.now env.fetchOk).1 },
              [.notif (getDisplayName env b) b, .clearCall, .sendAttempt sr]) ∧
            (sr = .sent ∨ sr = .failed)) ∧
    (∀ (st : MobState) (env : TickEnv) (an c a : String),
      st.lastUpdatedPackage = some a →
      rpcIsConnected st.rpc = true →
      isNullApp an c = false →
      isAppEnabled env c = false →
      tickParsed st env an c
        = ({ st with lastUpdatedPackage := none },
            [.notif "No app detected" "", .clearCall])) := by
  constructor
  · intro st env an b a cid hprev hrpcprev hconn hnn hne hcid hen
    have hne2 : (st.lastUpdatedPackage == some b) = false := by
      rw [hprev]
      exact beq_eq_false_iff_ne.mpr (by simpa using hne)
    have henb : isAppEnabled env b = true := by
      unfold isAppEnabled
      rw [hcid, hen]
    have hsr : (setActivity st.rpc (getDisplayName env b) b (some cid)
        env.now env.fetchOk).2 = .sent ∨
        (setActivity st.rpc (getDisplayName env b) b (some cid)
          env.now env.fetchOk).2 = .failed := by
      apply c7_throttle_same_app_only.2.1 st.rpc (getDisplayName env b) b
        (some cid) env.now env.fetchOk hconn
      rw [hrpcprev]
      simp only [ne_eq, Option.some.injEq]
      simpa using hne
    refine ⟨(setActivity st.rpc (getDisplayName env b) b (some cid)
        env.now env.fetchOk).2, ?_, hsr⟩
    unfold tickParsed updateDiscordRPC
    simp [hnn, henb, hprev, hne2, hconn, hcid, hne]
  · intro st env an c a hprev hconn hnn hdis
    unfold tickParsed
    simp [hnn, hdis, hprev, hconn]

/-- Witness for `c6_switch_clear_then_emit`: a concrete switch from `com.a`
to the enabled `com.b`, and from `com.a` to the unconfigured `com.c`. -/
theorem c6_switch_clear_then_emit_witness :
    (∃ sr, tickParsed testMobStateA testTickEnv "AppB" "com.b"
        = ({ lastUpdatedPackage := some "com.b",
              rpc := (setActivity testMobStateA.rpc
                (getDisplayName testTickEnv "com.b") "com.b" (some "cid-b")
                testTickEnv.now testTickEnv.fetchOk).1 },
            [.notif (getDisplayName testTickEnv "com.b") "com.b", .clearCall,
              .sendAttempt sr]) ∧
          (sr = .sent ∨ sr = .failed)) ∧
      tickParsed testMobStateA testTickEnv "AppC" "com.c"
        = ({ testMobStateA with lastUpdatedPackage := none },
            [.notif "No app detected" "", .clearCall]) :=
  ⟨c6_switch_clear_then_emit.1 testMobStateA testTickEnv "AppB" "com.b"
      "com.a" "cid-b" rfl rfl rfl rfl (by decide) rfl rfl,
   c6_switch_clear_then_emit.2 testMobStateA testTickEnv "AppC" "com.c"
      "com.a" rfl rfl rfl rfl⟩

/-! ## Desktop companion server (src/desktop-app/index.js), as a state
machine over its module-level mutable variables -/

structure UpdateBody where
  displayName : Option String
  packageName : Option String
  clientId : Option String
deriving DecidableEq

/-- JavaScript truthiness of an optional string (missing and `""` falsy). -/
def jsTruthyStr : Option String → Bool
  | none => false
  | some s => s != ""

/-- Line 148: `!displayName || displayName === 'null' || packageName ===
'unknown' || packageName === 'null'`. -/
def isNullBody (b : UpdateBody) : Bool :=
  !(jsTruthyStr b.displayName) || b.displayName == some "null" ||
    b.packageName == some "unknown" || b.packageName == some "null"

/-- Lines 162–166: `!clientId || !clientId.trim()` rejects; otherwise the
trimmed CLIENT_ID is used. -/
def trimmedClientId : Option String → Option String
  | none => none
  | some s => if s.trim == "" then none else some s.trim

/-- The module-level mutable state of `desktop-app/index.js`:
`rpc`, `currentClientId`, `isConnecting`, `discordConnected`,
`lastUpdateTime`, `isCleared`, plus the identity of the login in flight and
the ghost history of successful logins (most recent first). -/
structure DState where
  rpcAlive : Bool
  currentClientId : Option String
  isConnecting : Bool
  discordConnected : Bool
  lastUpdateTime : Option Nat
  isCleared : Bool
  pendingLogin : Option String
  successfulLogins : List String
deriving DecidableEq

def initDState : DState :=
  { rpcAlive := false, currentClientId := none, isConnecting := false,
    discordConnected := false, lastUpdateTime := none, isCleared := false,
    pendingLogin := none, successfulLogins := [] }

inductive DAction
  | sdkLogin (clientId : String)
  | retryScheduled (delayMs : Nat)
  | sdkClear
  | respondCleared
  | respondClientIdRequired
deriving DecidableEq

/-- Atomic steps of the single-threaded event loop.  `connectBegin` is the
synchronous prefix of `connectToDiscord`; `loginReady`/`loginError` are the
SDK's `ready`/`error` callbacks; `recvUpdate` is the synchronous part of the
`/update-presence` handler (the valid path then proceeds to
connect/setActivity as separate steps, which do not touch these state
variables); `recvClear` is `/clear-presence`; `sweep` is one tick of the
30 000 ms staleness interval, with `clearOk` the outcome of the
`clearActivity` promise. -/
inductive DEvent
  | connectBegin (clientId : String)
  | loginReady
  | loginError
  | recvUpdate (b : UpdateBody) (now : Nat)
  | recvClear
  | sweep (now : Nat) (clearOk : Bool)

def dstep (st : DState) (e : DEvent) : DState × List DAction :=
  match e with
  | .connectBegin c =>
    if st.discordConnected && st.currentClientId == some c && st.rpcAlive then
      (st, [])
    else if st.isConnecting then (st, [.retryScheduled 500])
    else
      ({ st with rpcAlive := true, discordConnected := false, isConnecting := true, pendingLogin := some c },
        [.sdkLogin c])
  | .loginReady =>
    match st.pendingLogin with
    | some c =>
      ({ st with discordConnected := true, currentClientId := some c, isConnecting := false, pendingLogin := none, successfulLogins := c :: st.successfulLogins },
        [])
    | none => (st, [])
  | .loginError =>
    match st.pendingLogin with
    | some _ => ({ st with isConnecting := false, pendingLogin := none }, [])
    | none => (st, [])
  | .recvUpdate b now =>
    let st1 := { st with lastUpdateTime := some now }
    if isNullBody b then
      if !st1.isCleared && st1.rpcAlive && st1.discordConnected then
        ({ st1 with isCleared := true, lastUpdateTime := none },
          [.sdkClear, .respondCleared])
      else ({ st1 with lastUpdateTime := none }, [.respondCleared])
    else
      let st2 := { st1 with isCleared := false }
      match trimmedClientId b.clientId with
      | none => (st2, [.respondClientIdRequired])
      | some _ => (st2, [])
  | .recvClear =>
    if !st.discordConnected then (st, [])
    else if !st.isCleared then
      ({ st with lastUpdateTime := none, isCleared := true }, [.sdkClear])
    else (st, [])
  | .sweep now clearOk =>
    if !st.discordConnected then (st, [])
    else
      match st.lastUpdateTime with
      | none => (st, [])
      | some t =>
        if now - t ≥ 60000 then
          if !st.isCleared then
            if clearOk then
              ({ st with isCleared := true, lastUpdateTime := none },
                [.sdkClear])
            else (st, [.sdkClear])
          else (st, [])
        else (st, [])

def runD (st : DState) (evs : List DEvent) : DState × List DAction :=
  match evs with
  | [] => (st, [])
  | e :: rest =>
    let r := dstep st e
    let r2 := runD r.1 rest
    (r2.1, r.2 ++ r2.2)

def isLoginAction : DAction → Bool
  | .sdkLogin _ => true
  | _ => false

def loginCount (acts : List DAction) : Nat := (acts.filter isLoginAction).length

/-- The `/health` endpoint body's two interesting fields. -/
def healthResponse (st : DState) : Bool × Option String :=
  (st.discordConnected, st.currentClientId)

inductive DReachable : DState → Prop
  | init : DReachable initDState
  | step (st : DState) (e : DEvent) : DReachable st → DReachable (dstep st e).1

/-- The server invariant: `currentClientId` is always the most recent
successful login (none before the first); `discordConnected` only after a
successful login; a login in flight implies not connected; `isCleared`
implies `lastUpdateTime` reset. -/
def dInv (st : DState) : Prop :=
  st.currentClientId = st.successfulLogins.head? ∧
  (st.discordConnected = true → st.successfulLogins ≠ []) ∧
  (∀ c, st.pendingLogin = some c → st.discordConnected = false) ∧
  (st.isCleared = true → st.lastUpdateTime = none)

theorem dInv_init : dInv initDState := by
  refine ⟨rfl, ?_, ?_, ?_⟩
  · intro h
    cases h
  · intro c hc
    cases hc
  · intro h
    cases h

theorem dInv_step (st : DState) (e : DEvent) (h : dInv st) :
    dInv (dstep st e).1 := by
  obtain ⟨h1, h2, h3, h4⟩ := h
  cases e with
  | connectBegin c =>
    simp only [dstep]
    split
    · exact ⟨h1, h2, h3, h4⟩
    · split
      · exact ⟨h1, h2, h3, h4⟩
      · refine ⟨h1, ?_, ?_, h4⟩
        · intro hcon
          cases hcon
        · intro c' _
          rfl
  | loginReady =>
    cases hp : st.pendingLogin with
    | none =>
      simp only [dstep, hp]
      exact ⟨h1, h2, h3, h4⟩
    | some c =>
      simp only [dstep, hp]
      refine ⟨rfl, ?_, ?_, h4⟩
      · intro _
        simp
      · intro c' hc'
        cases hc'
  | loginError =>
    cases hp : st.pendingLogin with
    | none =>
      simp only [dstep, hp]
      exact ⟨h1, h2, h3, h4⟩
    | some c =>
      simp only [dstep, hp]
      refine ⟨h1, h2, ?_, h4⟩
      intro c' hc'
      cases hc'
  | recvUpdate b now =>
    simp only [dstep]
    split
    · split
      · exact ⟨h1, h2, h3, fun _ => rfl⟩
      · exact ⟨h1, h2, h3, fun _ => rfl⟩
    · split
      · refine ⟨h1, h2, h3, ?_⟩
        intro hcl
        cases hcl
      · refine ⟨h1, h2, h3, ?_⟩
        intro hcl
        cases hcl
  | recvClear =>
    simp only [dstep]
    split
    · exact ⟨h1, h2, h3, h4⟩
    · split
      · exact ⟨h1, h2, h3, fun _ => rfl⟩
      · exact ⟨h1, h2, h3, h4⟩
  | sweep now clearOk =>
    simp only [dstep]
    split
    · exact ⟨h1, h2, h3, h4⟩
    · split
      · exact ⟨h1, h2, h3, h4⟩
      · split
        · split
          · split
            · exact ⟨h1, h2, h3, fun _ => rfl⟩
            · exact ⟨h1, h2, h3, h4⟩
          · exact ⟨h1, h2, h3, h4⟩
        · exact ⟨h1, h2, h3, h4⟩

theorem dReachable_inv (st : DState) (h : DReachable st) : dInv st := by
  induction h with
  | init => exact dInv_init
  | step st e _ ih => exact dInv_step st e ih

/-- **C4, amended.**  The empty/unknown routing lives on the desktop side of
the transport: the `/update-presence` handler, on a body whose
`displayName`/`packageName` is missing, `"null"` or `"unknown"`, clears
(at most one `clearActivity`, only when connected and not already cleared)
and answers `{success:true, message:'Cleared activity'}` — it never proceeds
to the SDK `setActivity` (the emitted actions are only the clear and that
response), and it resets `lastUpdateTime`.  (`DesktopRPC.setActivity` itself
posts regardless — see the counterexample — and the mobile caller routes
null resolutions to `clearActivity` before ever calling it.) -/
theorem c4_server_null_routing_amended :
    ∀ (st : DState) (b : UpdateBody) (now : Nat),
      isNullBody b = true →
      DAction.respondCleared ∈ (dstep st (.recvUpdate b now)).2 ∧
      (∀ a ∈ (dstep st (.recvUpdate b now)).2,
        a = DAction.sdkClear ∨ a = DAction.respondCleared) ∧
      (dstep st (.recvUpdate b now)).1.lastUpdateTime = none ∧
      ((dstep st (.recvUpdate b now)).2 = [.sdkClear, .respondCleared] ∨
        (dstep st (.recvUpdate b now)).2 = [.respondCleared]) := by
  intro st b now hnull
  simp only [dstep, hnull, if_true]
  split
  · refine ⟨by simp, ?_, rfl, Or.inl rfl⟩
    intro a ha
    rcases List.mem_cons.mp ha with rfl | ha'
    · exact Or.inl rfl
    · rcases List.mem_cons.mp ha' with rfl | ha''
      · exact Or.inr rfl
      · simp at ha''
  · refine ⟨by simp, ?_, rfl, Or.inr rfl⟩
    intro a ha
    rcases List.mem_cons.mp ha with rfl | ha'
    · exact Or.inr rfl
    · simp at ha'

def testNullBody : UpdateBody :=
  { displayName := some "null", packageName := some "unknown",
    clientId := none }

/-- Witness for `c4_server_null_routing_amended` at a concrete body. -/
theorem c4_server_null_routing_amended_witness :
    DAction.respondCleared ∈ (dstep initDState (.recvUpdate testNullBody 7)).2 ∧
      (∀ a ∈ (dstep initDState (.recvUpdate testNullBody 7)).2,
        a = DAction.sdkClear ∨ a = DAction.respondCleared) ∧
      (dstep initDState (.recvUpdate testNullBody 7)).1.lastUpdateTime = none ∧
      ((dstep initDState (.recvUpdate testNullBody 7)).2
          = [.sdkClear, .respondCleared] ∨
        (dstep initDState (.recvUpdate testNullBody 7)).2
          = [.respondCleared]) :=
  c4_server_null_routing_amended initDState testNullBody 7 (by decide)

/-- **C8.**  While a login is in flight (`isConnecting`), a further
`connectToDiscord` call never starts a second login and leaves the state
unchanged; when moreover the cache-hit guard does not apply it schedules a
500 ms retry; and the two-concurrent-calls scenario from Idle — call 1,
call 2 while connecting, the SDK `ready`, then call 2's retry — performs
exactly one SDK login in total. -/
theorem c8_single_login_in_flight :
    (∀ (st : DState) (c : String), st.isConnecting = true →
      loginCount (dstep st (.connectBegin c)).2 = 0 ∧
        (dstep st (.connectBegin c)).1 = st) ∧
    (∀ (st : DState) (c : String), st.isConnecting = true →
      (st.discordConnected && st.currentClientId == some c && st.rpcAlive)
          = false →
      dstep st (.connectBegin c) = (st, [.retryScheduled 500])) ∧
    (∀ c : String,
      loginCount (runD initDState
        [.connectBegin c, .connectBegin c, .loginReady,
          .connectBegin c]).2 = 1) := by
  refine ⟨?_, ?_, ?_⟩
  · intro st c hconn
    simp only [dstep]
    split
    · exact ⟨rfl, rfl⟩
    · simp only [hconn, if_true]
      exact ⟨rfl, trivial⟩
  · intro st c hconn hguard
    simp only [dstep, hguard, Bool.false_eq_true, if_false, hconn, if_true]
  · intro c
    simp [runD, dstep, initDState, loginCount, isLoginAction]

/-- Witness for `c8_single_login_in_flight`: the state right after the first
call from Idle is `Connecting`; a second call there is a no-op retry. -/
theorem c8_single_login_in_flight_witness :
    (loginCount (dstep (dstep initDState (.connectBegin "c")).1
          (.connectBegin "c")).2 = 0 ∧
        (dstep (dstep initDState (.connectBegin "c")).1
          (.connectBegin "c")).1 = (dstep initDState (.connectBegin "c")).1) ∧
      dstep (dstep initDState (.connectBegin "c")).1 (.connectBegin "c")
        = ((dstep initDState (.connectBegin "c")).1,
            [.retryScheduled 500]) ∧
      loginCount (runD initDState
        [.connectBegin "c", .connectBegin "c", .loginReady,
          .connectBegin "c"]).2 = 1 :=
  ⟨c8_single_login_in_flight.1 (dstep initDState (.connectBegin "c")).1 "c"
      (by decide),
   c8_single_login_in_flight.2.1 (dstep initDState (.connectBegin "c")).1 "c"
      (by decide) (by decide),
   c8_single_login_in_flight.2.2 "c"⟩

/-- **C9.**  On a sweep tick of a reachable connected state whose
`lastUpdateTime` is set and at least 60 000 ms old, exactly one
`clearActivity` is performed, after which `isCleared := true` and
`lastUpdateTime := none`; any subsequent sweep tick performs zero further
clears (until a new update sets `lastUpdateTime` again).  Reachability
supplies the fact that such a state is never already cleared. -/
theorem c9_staleness_sweep_once :
    ∀ (st : DState) (t now : Nat), DReachable st →
      st.discordConnected = true →
      st.lastUpdateTime = some t →
      now - t ≥ 60000 →
      (dstep st (.sweep now true)).2 = [.sdkClear] ∧
      (dstep st (.sweep now true)).1.isCleared = true ∧
      (dstep st (.sweep now true)).1.lastUpdateTime = none ∧
      ∀ (now2 : Nat) (ok2 : Bool),
        (dstep (dstep st (.sweep now true)).1 (.sweep now2 ok2)).2 = [] := by
  intro st t now hr hconn hlast hstale
  obtain ⟨-, -, -, h4⟩ := dReachable_inv st hr
  have hcl : st.isCleared = false := by
    cases hcl' : st.isCleared with
    | false => rfl
    | true =>
      rw [h4 hcl'] at hlast
      exact Option.noConfusion hlast
  have hstep : dstep st (.sweep now true)
      = ({ st with isCleared := true, lastUpdateTime := none },
          [.sdkClear]) := by
    simp [dstep, hconn, hlast, hcl, hstale]
  rw [hstep]
  refine ⟨rfl, rfl, rfl, ?_⟩
  intro now2 ok2
  simp [dstep, hconn]

def testValidBody : UpdateBody :=
  { displayName := some "AppX", packageName := some "com.x",
    clientId := none }

/-- Witness for `c9_staleness_sweep_once`: a concrete reachable state built
by connecting with CLIENT_ID `"c"` and receiving one non-null update at
t = 100 (which sets `lastUpdateTime` before the CLIENT_ID check), swept at
t = 61100. -/
theorem c9_staleness_sweep_once_witness :
    (dstep (dstep (dstep (dstep initDState (.connectBegin "c")).1
          .loginReady).1 (.recvUpdate testValidBody 100)).1
        (.sweep 61100 true)).2 = [.sdkClear] ∧
      (dstep (dstep (dstep (dstep initDState (.connectBegin "c")).1
          .loginReady).1 (.recvUpdate testValidBody 100)).1
        (.sweep 61100 true)).1.isCleared = true ∧
      (dstep (dstep (dstep (dstep initDState (.connectBegin "c")).1
          .loginReady).1 (.recvUpdate testValidBody 100)).1
        (.sweep 61100 true)).1.lastUpdateTime = none ∧
      ∀ (now2 : Nat) (ok2 : Bool),
        (dstep (dstep (dstep (dstep (dstep initDState
            (.connectBegin "c")).1 .loginReady).1
            (.recvUpdate testValidBody 100)).1 (.sweep 61100 true)).1
          (.sweep now2 ok2)).2 = [] :=
  c9_staleness_sweep_once _ 100 61100
    (DReachable.step _ (.recvUpdate testValidBody 100)
      (DReachable.step _ .loginReady
        (DReachable.step _ (.connectBegin "c") DReachable.init)))
    (by rfl) (by rfl) (by decide)

/-- **C10.**  In every reachable server state, `currentClientId` (as
reported by `/health`) equals the CLIENT_ID of the most recent successful
login (none before any succeeded), `discordConnected` is true only after
some login succeeded, and a failing login (`loginError` while a login is in
flight) leaves `discordConnected` false and `currentClientId` untouched —
never assigning it the failed identity. -/
theorem c10_connection_identity_invariant :
    ∀ st : DState, DReachable st →
      (healthResponse st).2 = st.successfulLogins.head? ∧
      ((healthResponse st).1 = true → st.successfulLogins ≠ []) ∧
      (∀ c, st.pendingLogin = some c →
        st.discordConnected = false ∧
        (dstep st .loginError).1.discordConnected = false ∧
        (dstep st .loginError).1.currentClientId = st.currentClientId) := by
  intro st h
  obtain ⟨h1, h2, h3, -⟩ := dReachable_inv st h
  refine ⟨h1, h2, ?_⟩
  intro c hc
  have hdc := h3 c hc
  refine ⟨hdc, ?_, ?_⟩
  · simp only [dstep, hc]
    exact hdc
  · simp only [dstep, hc]

/-- Witness for `c10_connection_identity_invariant` at the concrete
reachable state with a login for `"c"` in flight. -/
theorem c10_connection_identity_invariant_witness :
    (healthResponse (dstep initDState (.connectBegin "c")).1).2
        = (dstep initDState (.connectBegin "c")).1.successfulLogins.head? ∧
      ((healthResponse (dstep initDState (.connectBegin "c")).1).1 = true →
        (dstep initDState (.connectBegin "c")).1.successfulLogins ≠ []) ∧
      (∀ c, (dstep initDState (.connectBegin "c")).1.pendingLogin = some c →
        (dstep initDState (.connectBegin "c")).1.discordConnected = false ∧
        (dstep (dstep initDState (.connectBegin "c")).1
            .loginError).1.discordConnected = false ∧
        (dstep (dstep initDState (.connectBegin "c")).1
            .loginError).1.currentClientId
          = (dstep initDState (.connectBegin "c")).1.currentClientId) :=
  c10_connection_identity_invariant _
    (DReachable.step _ (.connectBegin "c") DReachable.init)
